import Mathlib

/-!
Verification development for the intelligent-driver-forwarder pipeline.

This file gives a shallow embedding, in Lean 4, of the content-processing and
publishing pipeline of the repository: the content filter
(`filterArticles` / `isValidArticle` / `calculateRelevanceScore`), the
duplicate detector (`removeDuplicates`, `calculateSimilarity`,
`calculateTextSimilarity`, `calculateUrlSimilarity`, `normalizeUrl`), the post
composer (`assemblePost`), the database models (`Article.create`,
`FacebookPost.updateStatus`), the delivery retry loop (`makeRequest`), the
publishing tick (`publishPost` / `processScheduledPosts`) and the single-flight
ingestion run (`runNewsScraping`).

Conventions of the embedding:
* JavaScript numbers are modelled as exact rationals; all the constants used
  by the pipeline (0.5, 0.1, 0.7, ...) are exactly representable, and the
  comparisons the code performs are unaffected by the float/rational gap on
  the inputs considered.
* JavaScript strings are modelled as Lean strings; `length`, `substring`,
  `split`, `join`, `trim`, `includes`, `toLowerCase` are modelled by their
  Lean counterparts, which agree with the JavaScript behaviour on the ASCII
  strings the pipeline handles.
* A JavaScript value that may be `null`/`undefined` is modelled as an
  `Option`; a thrown exception is modelled with `Except`.
* `new URL(...)` is modelled by a small parser for well-formed
  `http(s)://host/path?query#fragment` URLs; a string that does not have that
  shape is treated as a parse failure, which models the `catch` branches of
  the source.
-/

namespace Forwarder

/-! ## JavaScript string primitives -/

/-- Whether `needle` occurs at the head of `hay`. -/
def startsWithSeq : List Char → List Char → Bool
  | _, [] => true
  | [], _ :: _ => false
  | h :: hs, n :: ns => h = n && startsWithSeq hs ns

/-- Whether `needle` occurs contiguously anywhere in `hay`. -/
def containsSeq : List Char → List Char → Bool
  | [], needle => needle.isEmpty
  | h :: hs, needle => startsWithSeq (h :: hs) needle || containsSeq hs needle

/-- Model of JavaScript `a.includes(b)`: `b` occurs as a contiguous substring
of `a`. -/
def jsIncludes (a b : String) : Bool :=
  containsSeq a.toList b.toList

/-- Model of splitting on the regular expression of whitespace runs followed by
dropping short tokens: the maximal non-whitespace runs of `s`.  `String.split`
cuts at every separator character, so empty pieces appear between consecutive
separators; they are removed by any positive length filter, exactly as in the
source. -/
def splitWs (s : String) : List String :=
  s.split Char.isWhitespace

/-- Model of JavaScript `Array.prototype.join(sep)`. -/
def jsJoin (sep : String) (l : List String) : String :=
  String.intercalate sep l

/-! ## DuplicateDetector (src: duplicateDetector, part_008 second half) -/

/-- `normalizeText` from the duplicate detector: lowercase, replace every
character that is neither a word character (letter, digit, underscore) nor
whitespace by a space, collapse whitespace runs to single spaces and trim. -/
def normalizeText (text : String) : String :=
  let lowered := text.toLower
  let replaced := lowered.map fun c =>
    if c.isAlphanum ∨ c = '_' ∨ c.isWhitespace then c else ' '
  jsJoin " " ((splitWs replaced).filter (fun w => w ≠ ""))

/-- The set of words longer than 3 characters of a text, as used by
`calculateTextSimilarity` (a JavaScript `Set`, hence a `Finset`). -/
def wordSet (text : String) : Finset String :=
  ((splitWs text).filter (fun w => 3 < w.length)).toFinset

/-- `calculateTextSimilarity`: Jaccard similarity over the sets of words
longer than 3 characters; empty-text and empty-set guards as in the source. -/
def calculateTextSimilarity (textA textB : String) : ℚ :=
  if textA = "" ∨ textB = "" then 0
  else
    let wordsA := wordSet textA
    let wordsB := wordSet textB
    if wordsA.card = 0 ∧ wordsB.card = 0 then 1
    else if wordsA.card = 0 ∨ wordsB.card = 0 then 0
    else ((wordsA ∩ wordsB).card : ℚ) / ((wordsA ∪ wordsB).card : ℚ)

/-! ### URL model

`new URL(url)` of the WHATWG standard is modelled for the simple shape
`scheme://host/path?query#fragment` with scheme `http` or `https`; any other
string makes the parser fail, modelling the exception of the constructor. -/

/-- Parsed URL: scheme, host, pathname (with leading slash), search
parameters in order, fragment. -/
structure JsUrl where
  scheme : String
  host : String
  pathname : String
  params : List (String × String)
  hash : String
deriving DecidableEq

/-- Split a string at the first occurrence of a separator character:
returns the part before and (if the separator occurs) the part after it. -/
def splitFirst (sep : Char) (s : String) : String × Option String :=
  match s.toList.findIdx? (· = sep) with
  | none => (s, none)
  | some i =>
    (⟨s.toList.take i⟩, some ⟨s.toList.drop (i + 1)⟩)

/-- Parse one `key=value` search parameter (value empty when `=` is absent). -/
def parseParam (p : String) : String × String :=
  match splitFirst '=' p with
  | (k, none) => (k, "")
  | (k, some v) => (k, v)

/-- Model of `new URL(url)` restricted to `http(s)://...`; `none` models the
thrown `TypeError` of the constructor. -/
def parseUrl (url : String) : Option JsUrl :=
  let afterScheme : Option (String × String) :=
    if url.startsWith "https://" then some ("https", url.drop 8)
    else if url.startsWith "http://" then some ("http", url.drop 7)
    else none
  match afterScheme with
  | none => none
  | some (scheme, rest) =>
    let (beforeHash, hashPart) := splitFirst '#' rest
    let (beforeQuery, queryPart) := splitFirst '?' beforeHash
    let (host, pathPart) := splitFirst '/' beforeQuery
    if host = "" then none
    else
      some
        { scheme := scheme
          host := host.toLower
          pathname := "/" ++ (pathPart.getD "")
          params := ((queryPart.getD "").split (· = '&')).filter (· ≠ "")
            |>.map parseParam
          hash := hashPart.getD "" }

/-- Serialization of a parsed URL as by `URL.prototype.toString` with the
fragment already cleared (the detector sets `hash = ''` before printing). -/
def urlToString (u : JsUrl) : String :=
  u.scheme ++ "://" ++ u.host ++ u.pathname ++
    (if u.params.isEmpty then ""
     else "?" ++ jsJoin "&" (u.params.map fun kv => kv.1 ++ "=" ++ kv.2))

/-- The tracking query parameters removed by `normalizeUrl`. -/
def trackingParams : List String :=
  ["utm_source", "utm_medium", "utm_campaign", "utm_content", "utm_term",
   "fbclid", "gclid", "ref", "referrer", "source", "campaign"]

/-- `normalizeUrl`: strip tracking parameters, drop the fragment, drop a
trailing slash of a non-root path, lowercase; on a parse failure fall back to
the lowercased, trimmed raw string. -/
def normalizeUrl (url : String) : String :=
  match parseUrl url with
  | none => url.toLower.trim
  | some u =>
    let params := u.params.filter (fun kv => ¬ trackingParams.contains kv.1)
    let pathname :=
      if u.pathname.endsWith "/" ∧ 1 < u.pathname.length
      then u.pathname.dropRight 1 else u.pathname
    (urlToString { u with params := params, pathname := pathname,
                          hash := "" }).toLower

/-- Replace every non-alphanumeric character of a pathname by a space, as the
`replace` over the case-insensitive non-alphanumeric class in
`calculateUrlSimilarity`. -/
def pathTokens (path : String) : String :=
  path.map fun c => if c.isAlphanum then c else ' '

/-- `calculateUrlSimilarity`: 1 on equal canonical URLs, 0.8 when one contains
the other, else half the Jaccard similarity of the path tokens, 0 when a URL
does not parse. -/
def calculateUrlSimilarity (urlA urlB : String) : ℚ :=
  let normalizedA := normalizeUrl urlA
  let normalizedB := normalizeUrl urlB
  if normalizedA = normalizedB then 1
  else if jsIncludes normalizedA normalizedB ∨ jsIncludes normalizedB normalizedA
  then 4/5
  else
    match parseUrl urlA, parseUrl urlB with
    | some a, some b =>
      calculateTextSimilarity (pathTokens a.pathname) (pathTokens b.pathname)
        * (1/2)
    | _, _ => 0

/-! ### Articles -/

/-- The article record as handled by the processors.  An absent or `null`
string field is modelled by `""` (both are falsy where the processors test
them); `published_date` is the epoch timestamp in milliseconds;
`engagement_score` is the numeric engagement prior. -/
structure JArticle where
  title : String
  summary : String
  content : String
  url : String
  source : String
  image_url : String
  published_date : ℚ
  engagement_score : ℚ
deriving DecidableEq

/-- `articleA.content || articleA.summary || ''` of the similarity code. -/
def contentOrSummary (a : JArticle) : String :=
  if a.content ≠ "" then a.content
  else if a.summary ≠ "" then a.summary
  else ""

/-- Similarity threshold of the detector constructor. -/
def similarityThreshold : ℚ := 7/10

/-- `calculateSimilarity`: weighted sum of title, content and URL similarity
with the constructor weights 0.5, 0.3, 0.2. -/
def calculateSimilarity (articleA articleB : JArticle) : ℚ :=
  let titleSim := calculateTextSimilarity
    (normalizeText articleA.title) (normalizeText articleB.title)
  let contentSim := calculateTextSimilarity
    (normalizeText (contentOrSummary articleA))
    (normalizeText (contentOrSummary articleB))
  let urlSim := calculateUrlSimilarity articleA.url articleB.url
  titleSim * (1/2) + contentSim * (3/10) + urlSim * (1/5)

/-! ### Symmetry of the similarity measure (claim C10) -/

theorem calculateTextSimilarity_comm (a b : String) :
    calculateTextSimilarity a b = calculateTextSimilarity b a := by
  unfold calculateTextSimilarity
  rcases eq_or_ne a "" with ha | ha <;> rcases eq_or_ne b "" with hb | hb <;>
    simp only [ha, hb, eq_self_iff_true, true_or, or_true, if_true, if_pos,
      ne_eq] <;>
    simp [ha, hb, Finset.inter_comm, Finset.union_comm, and_comm, or_comm]

theorem calculateUrlSimilarity_comm (a b : String) :
    calculateUrlSimilarity a b = calculateUrlSimilarity b a := by
  unfold calculateUrlSimilarity
  rcases eq_or_ne (normalizeUrl a) (normalizeUrl b) with h | h
  · simp [h]
  · simp only [if_neg h, if_neg (Ne.symm h)]
    rcases hi : jsIncludes (normalizeUrl a) (normalizeUrl b) <;>
      rcases hj : jsIncludes (normalizeUrl b) (normalizeUrl a) <;>
      simp only [hi, hj, Bool.false_eq_true, or_self, or_true, true_or,
        if_true, if_false, false_or, or_false, if_pos, if_neg] <;>
      cases hpa : parseUrl a <;> cases hpb : parseUrl b <;>
      simp [calculateTextSimilarity_comm]

theorem calculateSimilarity_comm (a b : JArticle) :
    calculateSimilarity a b = calculateSimilarity b a := by
  unfold calculateSimilarity
  rw [calculateTextSimilarity_comm, calculateTextSimilarity_comm
    (normalizeText (contentOrSummary a)), calculateUrlSimilarity_comm]

/-- Claim C10: `calculateSimilarity` is symmetric in its two arguments — the
weighted combination of title Jaccard similarity, content/summary Jaccard
similarity and URL similarity yields the same value for `(A, B)` and
`(B, A)`, so the duplicate-pair relation `sim ≥ threshold` is a symmetric
relation. -/
theorem claim_c10_similarity_symmetric (a b : JArticle) :
    calculateSimilarity a b = calculateSimilarity b a ∧
    (similarityThreshold ≤ calculateSimilarity a b ↔
      similarityThreshold ≤ calculateSimilarity b a) := by
  refine ⟨calculateSimilarity_comm a b, ?_⟩
  rw [calculateSimilarity_comm a b]

/-! ## ContentFilter relevance scoring (src: contentFilter, part_008 first half) -/

/-- High-value trucking keywords of `calculateRelevanceScore`. -/
def highValueKeywords : List String :=
  ["freight rates", "truck driver shortage", "supply chain", "logistics",
   "transportation technology", "autonomous trucks", "electric trucks",
   "trucking regulations", "fuel prices", "truck safety"]

/-- Industry-specific terms of `calculateRelevanceScore`. -/
def industryTerms : List String :=
  ["ltl", "ftl", "intermodal", "drayage", "cross-docking",
   "eld", "dot", "fmcsa", "hours of service", "cdl"]

/-- Breaking news indicators of `calculateRelevanceScore`. -/
def breakingIndicators : List String :=
  ["breaking", "urgent", "just in", "developing", "alert",
   "emergency", "accident", "crash", "shutdown"]

/-- `calculateRelevanceScore`: base 0.5, keyword/term/indicator bonuses,
recency bonus computed from `now` (epoch milliseconds), image bonus,
0.2 × engagement prior, clamped to [0, 1]. -/
def calculateRelevanceScore (now : ℚ) (article : JArticle) : ℚ :=
  let title := article.title.toLower
  let content := (article.summary ++ " " ++ article.content).toLower
  let score : ℚ := 1/2
  let score := highValueKeywords.foldl (fun s keyword =>
    let s := if jsIncludes title keyword then s + 1/10 else s
    if jsIncludes content keyword then s + 1/20 else s) score
  let score := industryTerms.foldl (fun s term =>
    let s := if jsIncludes title term then s + 1/20 else s
    if jsIncludes content term then s + 1/50 else s) score
  let score := breakingIndicators.foldl (fun s indicator =>
    if jsIncludes title indicator then s + 3/20 else s) score
  let hoursOld := (now - article.published_date) / (1000 * 60 * 60)
  let score :=
    if hoursOld < 1 then score + 1/5
    else if hoursOld < 6 then score + 1/10
    else if hoursOld < 12 then score + 1/20
    else score
  let score := if article.image_url ≠ "" then score + 1/10 else score
  let score := score + article.engagement_score * (1/5)
  min 1 (max 0 score)

/-- The formula stated by the claim for `calculateRelevanceScore`: 0.5 plus
0.1 per high-value keyword in the lowercased title, 0.05 per high-value
keyword in the summary+body, 0.05 / 0.02 per industry term in title / body
text, 0.15 per breaking indicator in the title, the recency bonus, the image
bonus and 0.2 × engagement, clamped to [0, 1].  This follows the claim's
words and is compared against the source embedding above. -/
def claimRelevanceFormula (now : ℚ) (article : JArticle) : ℚ :=
  let title := article.title.toLower
  let content := (article.summary ++ " " ++ article.content).toLower
  let hoursOld := (now - article.published_date) / (1000 * 60 * 60)
  min 1 (max 0 (1/2
    + (1/10) * (highValueKeywords.countP (fun k => jsIncludes title k) : ℚ)
    + (1/20) * (highValueKeywords.countP (fun k => jsIncludes content k) : ℚ)
    + (1/20) * (industryTerms.countP (fun k => jsIncludes title k) : ℚ)
    + (1/50) * (industryTerms.countP (fun k => jsIncludes content k) : ℚ)
    + (3/20) * (breakingIndicators.countP (fun k => jsIncludes title k) : ℚ)
    + (if hoursOld < 1 then 1/5
       else if hoursOld < 6 then 1/10
       else if hoursOld < 12 then 1/20 else 0)
    + (if article.image_url ≠ "" then 1/10 else 0)
    + article.engagement_score * (1/5)))

theorem foldl_two_ite (p q : String → Bool) (a b : ℚ) (l : List String)
    (init : ℚ) :
    l.foldl (fun s k =>
        let s := if p k then s + a else s
        if q k then s + b else s) init
      = init + (a * (l.countP p : ℚ) + b * (l.countP q : ℚ)) := by
  induction l generalizing init with
  | nil => simp
  | cons h t ih =>
    simp only [List.foldl_cons, List.countP_cons]
    rw [ih]
    by_cases hp : p h <;> by_cases hq : q h <;>
      simp only [hp, hq, if_true, if_false, Bool.false_eq_true] <;>
      push_cast <;> ring

theorem foldl_one_ite (p : String → Bool) (a : ℚ) (l : List String)
    (init : ℚ) :
    l.foldl (fun s k => if p k then s + a else s) init
      = init + a * (l.countP p : ℚ) := by
  induction l generalizing init with
  | nil => simp
  | cons h t ih =>
    simp only [List.foldl_cons, List.countP_cons]
    rw [ih]
    by_cases hp : p h <;>
      simp only [hp, if_true, if_false, Bool.false_eq_true] <;>
      push_cast <;> ring

/-- Claim C7: `calculateRelevanceScore` equals 0.5 plus the weighted keyword,
industry-term, breaking-indicator, recency, image and engagement bonuses
enumerated by the claim, with the total clamped to [0, 1]; in particular the
returned score is always between 0 and 1. -/
theorem claim_c7_relevance_score (now : ℚ) (article : JArticle) :
    calculateRelevanceScore now article = claimRelevanceFormula now article ∧
    0 ≤ calculateRelevanceScore now article ∧
    calculateRelevanceScore now article ≤ 1 := by
  refine ⟨?_, ?_, ?_⟩
  · unfold calculateRelevanceScore claimRelevanceFormula
    dsimp only
    rw [foldl_two_ite, foldl_two_ite, foldl_one_ite]
    congr 2
    split_ifs <;> ring
  · exact le_min (by norm_num) (le_max_left 0 _)
  · exact min_le_left 1 _

/-! ## removeDuplicates (src: duplicateDetector.removeDuplicates) -/

instance : Inhabited JArticle :=
  ⟨{ title := "", summary := "", content := "", url := "", source := "",
     image_url := "", published_date := 0, engagement_score := 0 }⟩

/-- First pass of `removeDuplicates`, iterating over the candidates with
their indices: a candidate whose canonical URL is already in the URL map is
marked duplicate, otherwise its URL is recorded; independently a candidate
whose canonical URL matches a recent-window article is marked duplicate.
The JavaScript `Map` is modelled by its key list, since the stored indices
are never read back by the source. -/
def urlPass (existingArticles : List JArticle) :
    List JArticle → Nat → List String → List Nat → List String × List Nat
  | [], _, urlMap, dups => (urlMap, dups)
  | article :: rest, index, urlMap, dups =>
    let normalizedUrl := normalizeUrl article.url
    let step :=
      if normalizedUrl ∈ urlMap then (urlMap, index :: dups)
      else (normalizedUrl :: urlMap, dups)
    let dups :=
      if existingArticles.any (fun e => normalizeUrl e.url = normalizedUrl)
      then index :: step.2 else step.2
    urlPass existingArticles rest (index + 1) step.1 dups

/-- Inner loop of the similarity pass of `removeDuplicates`: compare
candidate `i` (`articleA`) against each later candidate index `j`; on a
duplicate pair the lower-engagement side is dropped, and the loop breaks as
soon as `i` itself is dropped. -/
def simInner (articles : List JArticle) (articleA : JArticle) (i : Nat) :
    List Nat → List Nat → List Nat
  | [], dups => dups
  | j :: js, dups =>
    if dups.contains j then simInner articles articleA i js dups
    else
      let articleB := articles.getD j default
      if similarityThreshold ≤ calculateSimilarity articleA articleB then
        if articleB.engagement_score ≤ articleA.engagement_score then
          simInner articles articleA i js (j :: dups)
        else i :: dups
      else simInner articles articleA i js dups

/-- One iteration of the outer similarity loop of `removeDuplicates`:
skip an already-dropped candidate, else run the inner loop, and when the
candidate survived compare it against the recent window. -/
def simStep (articles existingArticles : List JArticle) (dups : List Nat)
    (i : Nat) : List Nat :=
  if dups.contains i then dups
  else
    let articleA := articles.getD i default
    let dups := simInner articles articleA i
      (List.range' (i + 1) (articles.length - (i + 1))) dups
    if dups.contains i then dups
    else if existingArticles.any
        (fun e => similarityThreshold ≤ calculateSimilarity articleA e)
    then i :: dups else dups

/-- The set of duplicate indices accumulated by both passes of
`removeDuplicates` (a JavaScript `Set`, modelled as a list queried through
`contains`). -/
def duplicateIndexSet (articles existingArticles : List JArticle) :
    List Nat :=
  (List.range articles.length).foldl (simStep articles existingArticles)
    (urlPass existingArticles articles 0 [] []).2

/-- `removeDuplicates`: filter out the candidates whose index landed in the
duplicate set. -/
def removeDuplicates (articles existingArticles : List JArticle) :
    List JArticle :=
  (articles.enum.filter
    (fun p => ¬ (duplicateIndexSet articles existingArticles).contains p.1)
  ).map Prod.snd

/-! ### Monotonicity of the duplicate set -/

theorem urlPass_dups_mono (existingArticles : List JArticle) :
    ∀ (rest : List JArticle) (index : Nat) (urlMap : List String)
      (dups : List Nat) (x : Nat), x ∈ dups →
      x ∈ (urlPass existingArticles rest index urlMap dups).2 := by
  intro rest
  induction rest with
  | nil => intro index urlMap dups x hx; simpa [urlPass] using hx
  | cons a rest ih =>
    intro index urlMap dups x hx
    simp only [urlPass]
    apply ih
    split <;> split <;> simp [hx]

theorem simInner_mono (articles : List JArticle) (articleA : JArticle)
    (i : Nat) :
    ∀ (js : List Nat) (dups : List Nat) (x : Nat), x ∈ dups →
      x ∈ simInner articles articleA i js dups := by
  intro js
  induction js with
  | nil => intro dups x hx; simpa [simInner] using hx
  | cons j js ih =>
    intro dups x hx
    simp only [simInner]
    split
    · exact ih dups x hx
    · split
      · split
        · exact ih (j :: dups) x (List.mem_cons_of_mem j hx)
        · exact List.mem_cons_of_mem i hx
      · exact ih dups x hx

theorem simStep_mono (articles existingArticles : List JArticle)
    (dups : List Nat) (i : Nat) (x : Nat) (hx : x ∈ dups) :
    x ∈ simStep articles existingArticles dups i := by
  unfold simStep
  split
  · exact hx
  · have h1 := simInner_mono articles (articles.getD i default) i
      (List.range' (i + 1) (articles.length - (i + 1))) dups x hx
    dsimp only
    split
    · exact h1
    · split
      · exact List.mem_cons_of_mem i h1
      · exact h1

theorem foldl_simStep_mono (articles existingArticles : List JArticle) :
    ∀ (idxs : List Nat) (dups : List Nat) (x : Nat), x ∈ dups →
      x ∈ idxs.foldl (simStep articles existingArticles) dups := by
  intro idxs
  induction idxs with
  | nil => intro dups x hx; simpa using hx
  | cons i idxs ih =>
    intro dups x hx
    exact ih _ x (simStep_mono articles existingArticles dups i x hx)

theorem urlPass_mem_duplicateIndexSet (articles existingArticles : List JArticle)
    (x : Nat) (hx : x ∈ (urlPass existingArticles articles 0 [] []).2) :
    x ∈ duplicateIndexSet articles existingArticles :=
  foldl_simStep_mono articles existingArticles _ _ x hx

/-! ### First-pass invariants -/

theorem urlPass_hit (existingArticles : List JArticle) :
    ∀ (rest : List JArticle) (index : Nat) (urlMap : List String)
      (dups : List Nat) (p : Nat), p < rest.length →
      normalizeUrl ((rest.getD p default).url) ∈ urlMap →
      (index + p) ∈ (urlPass existingArticles rest index urlMap dups).2 := by
  intro rest
  induction rest with
  | nil => intro index urlMap dups p hp; exact absurd hp (by simp)
  | cons a rest ih =>
    intro index urlMap dups p hp hlook
    match p with
    | 0 =>
      simp only [List.getD_cons_zero] at hlook
      simp only [urlPass]
      rw [Nat.add_zero]
      apply urlPass_dups_mono
      rw [if_pos hlook]
      split
      · exact List.mem_cons_of_mem _ (List.mem_cons_self _ _)
      · exact List.mem_cons_self _ _
    | Nat.succ p =>
      simp only [List.getD_cons_succ] at hlook
      simp only [urlPass]
      have harith : index + (p + 1) = (index + 1) + p := by omega
      rw [harith]
      apply ih
      · simpa using hp
      · split
        · exact hlook
        · exact List.mem_cons_of_mem _ hlook

theorem urlPass_pair (existingArticles : List JArticle) :
    ∀ (rest : List JArticle) (index : Nat) (urlMap : List String)
      (dups : List Nat) (p q : Nat), p < q → q < rest.length →
      normalizeUrl ((rest.getD p default).url)
        = normalizeUrl ((rest.getD q default).url) →
      (index + q) ∈ (urlPass existingArticles rest index urlMap dups).2 := by
  intro rest
  induction rest with
  | nil => intro index urlMap dups p q hpq hq; exact absurd hq (by simp)
  | cons a rest ih =>
    intro index urlMap dups p q hpq hq hnorm
    match p, q with
    | 0, Nat.succ q =>
      simp only [List.getD_cons_zero, List.getD_cons_succ] at hnorm
      simp only [urlPass]
      have harith : index + (q + 1) = (index + 1) + q := by omega
      rw [harith]
      apply urlPass_hit existingArticles rest (index + 1)
      · simpa using hq
      · rw [← hnorm]
        split
        · exact (by assumption)
        · exact List.mem_cons_self _ _
    | Nat.succ p, Nat.succ q =>
      simp only [List.getD_cons_succ] at hnorm
      simp only [urlPass]
      have harith : index + (q + 1) = (index + 1) + q := by omega
      rw [harith]
      exact ih (index + 1) _ _ p q (by omega) (by simpa using hq) hnorm

theorem urlPass_window (existingArticles : List JArticle) :
    ∀ (rest : List JArticle) (index : Nat) (urlMap : List String)
      (dups : List Nat) (p : Nat), p < rest.length →
      (existingArticles.any fun e =>
        normalizeUrl e.url = normalizeUrl ((rest.getD p default).url))
          = true →
      (index + p) ∈ (urlPass existingArticles rest index urlMap dups).2 := by
  intro rest
  induction rest with
  | nil => intro index urlMap dups p hp; exact absurd hp (by simp)
  | cons a rest ih =>
    intro index urlMap dups p hp hany
    match p with
    | 0 =>
      simp only [List.getD_cons_zero] at hany
      simp only [urlPass]
      rw [Nat.add_zero]
      apply urlPass_dups_mono
      simp only [hany, eq_self_iff_true, if_true]
      exact List.mem_cons_self _ _
    | Nat.succ p =>
      simp only [List.getD_cons_succ] at hany
      simp only [urlPass]
      have harith : index + (p + 1) = (index + 1) + p := by omega
      rw [harith]
      exact ih (index + 1) _ _ p (by simpa using hp) hany

/-! ### Claim C6: exact URL duplicates -/

theorem contains_iff_mem_nat (l : List Nat) (x : Nat) :
    l.contains x = true ↔ x ∈ l := by
  simp [List.contains]

theorem mem_enum_spec {l : List JArticle} {p : Nat × JArticle}
    (hp : p ∈ l.enum) : p.1 < l.length ∧ p.2 = l.getD p.1 default := by
  obtain ⟨i, x⟩ := p
  rw [List.mk_mem_enum_iff_getElem?] at hp
  have hi : i < l.length := by
    by_contra hcon
    rw [List.getElem?_eq_none (by omega)] at hp
    exact Option.noConfusion hp
  refine ⟨hi, ?_⟩
  rw [List.getElem?_eq_getElem hi] at hp
  rw [List.getD_eq_getElem l default hi]
  exact (Option.some.inj hp).symm

theorem enum_pairwise_fst_lt (l : List JArticle) :
    l.enum.Pairwise (fun p q => p.1 < q.1) := by
  rw [List.pairwise_iff_getElem]
  intro i j hi hj hij
  rw [List.getElem_enum, List.getElem_enum]
  simpa using hij

/-- Claim C6 counterexample articles: two candidates with the same canonical
URL followed by a higher-engagement near-identical article at a distinct
URL. -/
def c6a1 : JArticle :=
  { title := "alpha beta gamma delta", summary := "",
    content := "alpha beta gamma delta words here", url := "https://a.com/x",
    source := "s", image_url := "", published_date := 0,
    engagement_score := 0 }

/-- Second member of the equal-canonical-URL group of the C6
counterexample. -/
def c6a2 : JArticle :=
  { title := "other totally different words", summary := "",
    content := "completely unrelated content text", url := "https://a.com/x",
    source := "s", image_url := "", published_date := 0,
    engagement_score := 0 }

/-- Higher-engagement near-duplicate of `c6a1` at a different URL. -/
def c6b : JArticle :=
  { title := "alpha beta gamma delta", summary := "",
    content := "alpha beta gamma delta words here", url := "https://b.com/y",
    source := "s", image_url := "", published_date := 0,
    engagement_score := 1 }

set_option maxRecDepth 40000 in
/-- Claim C6 counterexample: the candidates `c6a1` and `c6a2` form a group
with equal canonical URLs, yet the output of `removeDuplicates` contains no
item of that group at all (the first-pass survivor `c6a1` is eliminated by
the similarity pass against `c6b`), refuting that the output contains
exactly one item from each equal-canonical-URL group. -/
theorem claim_c6_counterexample :
    normalizeUrl c6a1.url = normalizeUrl c6a2.url ∧
    removeDuplicates [c6a1, c6a2, c6b] [] = [c6b] ∧
    ¬ ∃ a ∈ removeDuplicates [c6a1, c6a2, c6b] [],
        normalizeUrl a.url = normalizeUrl c6a1.url := by
  refine ⟨by with_unfolding_all decide, by with_unfolding_all decide, ?_⟩
  with_unfolding_all decide

/-- Claim C6, amended: the output of `removeDuplicates` contains at most one
item from each group of candidates with equal canonical URLs (no two output
items share a canonical URL), and any candidate whose canonical URL equals
that of an article in the recent window is dropped. -/
theorem claim_c6_amended (articles existingArticles : List JArticle) :
    (removeDuplicates articles existingArticles).Pairwise
      (fun a b => normalizeUrl a.url ≠ normalizeUrl b.url) ∧
    ∀ a ∈ removeDuplicates articles existingArticles,
      ∀ e ∈ existingArticles, normalizeUrl a.url ≠ normalizeUrl e.url := by
  constructor
  · rw [removeDuplicates, List.pairwise_map]
    have hlt : (articles.enum.filter (fun p =>
        ¬ (duplicateIndexSet articles existingArticles).contains p.1)).Pairwise
        (fun p q => p.1 < q.1) :=
      (enum_pairwise_fst_lt articles).filter _
    refine hlt.imp_of_mem ?_
    intro p q hp hq hpq
    have hpe := List.mem_of_mem_filter hp
    have hqe := List.mem_of_mem_filter hq
    have hpf := List.of_mem_filter hp
    have hqf := List.of_mem_filter hq
    obtain ⟨hplen, hpval⟩ := mem_enum_spec hpe
    obtain ⟨hqlen, hqval⟩ := mem_enum_spec hqe
    intro heq
    have hdup : q.1 ∈ (urlPass existingArticles articles 0 [] []).2 := by
      have := urlPass_pair existingArticles articles 0 [] [] p.1 q.1 hpq hqlen
        (by rw [← hpval, ← hqval]; exact heq)
      simpa using this
    have hdup2 : q.1 ∈ duplicateIndexSet articles existingArticles :=
      urlPass_mem_duplicateIndexSet articles existingArticles q.1 hdup
    rw [decide_eq_true_eq] at hqf
    exact hqf ((contains_iff_mem_nat _ _).mpr hdup2)
  · intro a ha e he heq
    rw [removeDuplicates] at ha
    obtain ⟨p, hp, hpa⟩ := List.mem_map.mp ha
    have hpe := List.mem_of_mem_filter hp
    have hpf := List.of_mem_filter hp
    obtain ⟨hplen, hpval⟩ := mem_enum_spec hpe
    have hany : (existingArticles.any fun x =>
        normalizeUrl x.url
          = normalizeUrl ((articles.getD p.1 default).url)) = true := by
      rw [List.any_eq_true]
      refine ⟨e, he, ?_⟩
      rw [decide_eq_true_eq, ← hpval, hpa]
      exact heq.symm
    have hdup : p.1 ∈ (urlPass existingArticles articles 0 [] []).2 := by
      have := urlPass_window existingArticles articles 0 [] [] p.1 hplen hany
      simpa using this
    have hdup2 : p.1 ∈ duplicateIndexSet articles existingArticles :=
      urlPass_mem_duplicateIndexSet articles existingArticles p.1 hdup
    rw [decide_eq_true_eq] at hpf
    exact hpf ((contains_iff_mem_nat _ _).mpr hdup2)

/-! ### Claim C2: similarity-phase tie-breaking -/

/-- C2 counterexample: older article, equal engagement with `c2y`. -/
def c2x : JArticle :=
  { title := "alpha beta gamma delta", summary := "",
    content := "alpha beta gamma delta words here", url := "https://a.com/x",
    source := "s", image_url := "", published_date := 0,
    engagement_score := 1/2 }

/-- C2 counterexample: more recent article, equal engagement with `c2x`. -/
def c2y : JArticle :=
  { title := "alpha beta gamma delta", summary := "",
    content := "alpha beta gamma delta words here", url := "https://b.com/y",
    source := "s", image_url := "", published_date := 1000,
    engagement_score := 1/2 }

set_option maxRecDepth 40000 in
/-- Claim C2 counterexample: `c2x` and `c2y` form a duplicate pair
(similarity above the threshold) with equal engagement scores, and `c2y` has
the later published date, yet `removeDuplicates` keeps the older `c2x` —
the tie does not break toward the more recent item. -/
theorem claim_c2_counterexample :
    similarityThreshold ≤ calculateSimilarity c2x c2y ∧
    c2x.engagement_score = c2y.engagement_score ∧
    c2x.published_date < c2y.published_date ∧
    removeDuplicates [c2x, c2y] [] = [c2x] := by
  refine ⟨by with_unfolding_all decide, by with_unfolding_all decide,
    by with_unfolding_all decide, by with_unfolding_all decide⟩

/-- Claim C2, amended: for a pair of candidates forming a duplicate pair
(similarity at least the 0.7 threshold, distinct canonical URLs),
`removeDuplicates` keeps exactly the higher-engagement member; when both
members have equal engagement scores the tie breaks toward the member
earlier in the candidate list (the first of the pair), regardless of
published date. -/
theorem claim_c2_amended (a b : JArticle)
    (hsim : similarityThreshold ≤ calculateSimilarity a b)
    (hurl : normalizeUrl a.url ≠ normalizeUrl b.url) :
    removeDuplicates [a, b] [] =
      if b.engagement_score ≤ a.engagement_score then [a] else [b] := by
  have h1 : (urlPass [] [a, b] 0 [] []).2 = [] := by
    simp [urlPass, Ne.symm hurl]
  have hr : List.range [a, b].length = [0, 1] := by
    simp [List.range_succ]
  have h2 : duplicateIndexSet [a, b] [] =
      if b.engagement_score ≤ a.engagement_score then [1] else [0] := by
    rw [duplicateIndexSet, h1, hr]
    by_cases heng : b.engagement_score ≤ a.engagement_score
    · simp [simStep, simInner, hsim, heng, List.range']
    · simp [simStep, simInner, hsim, heng, List.range']
  rw [removeDuplicates, h2]
  by_cases heng : b.engagement_score ≤ a.engagement_score
  · simp [heng, List.enum, List.enumFrom]
  · simp [heng, List.enum, List.enumFrom]

/-- C2 witness input: lower-engagement first member of the pair. -/
def c2p : JArticle :=
  { title := "alpha beta gamma delta", summary := "",
    content := "alpha beta gamma delta words here", url := "https://a.com/x",
    source := "s", image_url := "", published_date := 0,
    engagement_score := 3/10 }

/-- C2 witness input: higher-engagement second member of the pair. -/
def c2q : JArticle :=
  { title := "alpha beta gamma delta", summary := "",
    content := "alpha beta gamma delta words here", url := "https://b.com/y",
    source := "s", image_url := "", published_date := 1000,
    engagement_score := 4/5 }

set_option maxRecDepth 40000 in
/-- Witness for the amended claim C2 at a concrete duplicate pair: the
higher-engagement member `c2q` is the one kept. -/
theorem claim_c2_amended_witness :
    removeDuplicates [c2p, c2q] [] = [c2q] := by
  have h := claim_c2_amended c2p c2q (by with_unfolding_all decide)
    (by with_unfolding_all decide)
  rw [h]
  rw [if_neg (by with_unfolding_all decide)]

/-! ## PostGenerator.assemblePost (src: processors/postGenerator.js) -/

/-- Structural splitter at a separator character (accumulator-based), the
model of JavaScript `String.prototype.split` with a one-character
separator. -/
def splitCharAux (sep : Char) : List Char → List Char → List String
  | acc, [] => [⟨acc.reverse⟩]
  | acc, c :: cs =>
    if c = sep then ⟨acc.reverse⟩ :: splitCharAux sep [] cs
    else splitCharAux sep (c :: acc) cs

/-- Model of JavaScript `s.split(sep)` for a one-character separator. -/
def jsSplitChar (sep : Char) (s : String) : List String :=
  splitCharAux sep [] s.toList

/-- Model of JavaScript `String.prototype.trim`: strip whitespace from both
ends. -/
def jsTrim (s : String) : String :=
  ⟨((s.toList.dropWhile Char.isWhitespace).reverse.dropWhile
    Char.isWhitespace).reverse⟩

/-- Model of JavaScript `s.substring(0, n)` (clamped prefix). -/
def jsSubstringTo (s : String) (n : Nat) : String :=
  ⟨s.toList.take n⟩

/-- `assemblePost` of the post generator: append the call-to-action and the
hashtag line to the post text; when the assembled text exceeds
`maxPostLength`, re-derive it from its lines, keeping the first line
(headline) and the last line (hashtags) and truncating the joined middle
region (`lines.slice(1, -2)`) to the remaining budget with an appended
ellipsis, then re-assembling headline, truncated region, call-to-action and
hashtag line; finally trim. -/
def assemblePost (maxPostLength : Nat) (postText : String)
    (hashtags : List String) (callToAction : String) : String :=
  let fullPost := postText
  let fullPost :=
    if callToAction ≠ "" then fullPost ++ "\n\n" ++ callToAction else fullPost
  let fullPost :=
    if hashtags.length > 0 then fullPost ++ "\n\n" ++ jsJoin " " hashtags
    else fullPost
  if maxPostLength < fullPost.length then
    let lines := jsSplitChar '\n' fullPost
    let headline := lines.headD ""
    let hashtagLine := lines.getLastD ""
    let availableLength : Int :=
      (maxPostLength : Int) - headline.length - hashtagLine.length - 10
    let summary := jsTrim (jsJoin "\n" ((lines.drop 1).dropLast.dropLast))
    let summary :=
      if availableLength < (summary.length : Int) then
        jsSubstringTo summary (availableLength - 3).toNat ++ "..."
      else summary
    jsTrim (headline ++ "\n\n" ++ summary ++ "\n\n" ++ callToAction ++ "\n\n"
      ++ hashtagLine)
  else jsTrim fullPost

/-- C1 failing input: a 61-character headline. -/
def c1Headline : String :=
  "Freight Rates Climb Again As Capacity Tightens Across Markets"

/-- C1 failing input: a 140-character summary region (within the
150-character bound `createSummary` guarantees). -/
def c1Summary : String :=
  ⟨List.replicate 140 's'⟩

/-- C1 failing input: the post text assembled as headline, blank line,
summary (shape produced by `createPostText`). -/
def c1PostText : String :=
  c1Headline ++ "\n\n" ++ c1Summary

/-- C1 failing input: four selected hashtags (36-character hashtag line). -/
def c1Hashtags : List String :=
  ["#trucking", "#logistics", "#freight", "#rates"]

/-- C1 failing input: a call-to-action from the generator's fixed set. -/
def c1Cta : String :=
  "What are your thoughts on this development?"

set_option maxRecDepth 100000 in
/-- Claim C1 evidence: at the concrete oversized input, `assemblePost` with
the default budget 280 enters its truncation branch yet returns a string of
length 319 — the re-derived text re-appends the call-to-action that the
`lines.slice(1, -2)` middle region already contains, exceeding the budget
by the call-to-action length minus 4. -/
theorem claim_c1_overflow :
    280 < (assemblePost 280 c1PostText c1Hashtags c1Cta).length ∧
    (assemblePost 280 c1PostText c1Hashtags c1Cta).length = 319 := by
  refine ⟨?_, ?_⟩
  · with_unfolding_all decide
  · with_unfolding_all decide

/-! ## ContentFilter.filterArticles (src: contentFilter, part_008 first half)

A list entry that is JavaScript `null`/`undefined` is modelled as `none`;
property access on it throws a `TypeError`.  A present article is a
`JArticle` (an absent or empty string field is `""`: both are falsy
everywhere the filter tests them). -/

/-- A thrown JavaScript exception. -/
inductive JsError where
  | typeError (msg : String)
deriving DecidableEq

/-- Configuration of the `ContentFilter` constructor (config defaults:
empty keyword and domain lists, minimum word count 50). -/
structure FilterConfig where
  spamKeywords : List String
  requiredKeywords : List String
  blockedDomains : List String
  minWordCount : Nat
deriving DecidableEq

/-- The `ContentFilter` constructor defaults. -/
def defaultFilterConfig : FilterConfig :=
  { spamKeywords := [], requiredKeywords := [], blockedDomains := [],
    minWordCount := 50 }

/-- Structural splitter at every character satisfying `p`, the model of
JavaScript `split` with a single-character class; empty pieces appear
between consecutive separator characters as in the source. -/
def splitOnPred (p : Char → Bool) (s : String) : List String :=
  let rec go : List Char → List Char → List String
    | acc, [] => [⟨acc.reverse⟩]
    | acc, c :: cs =>
      if p c then ⟨acc.reverse⟩ :: go [] cs else go (c :: acc) cs
  go [] s.toList

/-- `getWordCount`: split on whitespace and count the non-empty tokens. -/
def getWordCount (text : String) : Nat :=
  if text = "" then 0
  else ((splitOnPred Char.isWhitespace (jsTrim text)).filter
    (fun w => 0 < w.length)).length

/-- A word character of the regular-expression class (letter, digit,
underscore). -/
def isWordChar (c : Char) : Bool :=
  c.isAlphanum || c = '_'

/-- Word-boundary occurrence of `kw` in `text`, modelling the
`\b keyword \b` regular expression for keywords made of word characters:
an occurrence whose neighbours (when present) are non-word characters. -/
def wordBoundedOccurs (kw text : String) : Bool :=
  let k := kw.toList
  let boundary : Option Char → Bool
    | none => true
    | some c => ¬ isWordChar c
  let rec go (prev : Option Char) : List Char → Bool
    | [] => false
    | c :: cs =>
      (boundary prev && startsWithSeq (c :: cs) k &&
        boundary ((c :: cs).drop k.length).head?) ||
      go (some c) cs
  go none text.toList

/-- `containsSpamKeywords`: the lowercased `title summary content` text
matches some spam keyword at a word boundary. -/
def containsSpamKeywords (cfg : FilterConfig) (article : JArticle) : Bool :=
  let text := (article.title ++ " " ++ article.summary ++ " "
    ++ article.content).toLower
  cfg.spamKeywords.any fun keyword => wordBoundedOccurs keyword.toLower text

/-- `containsRequiredKeywords`: the lowercased text matches at least one
required keyword at a word boundary. -/
def containsRequiredKeywords (cfg : FilterConfig) (article : JArticle) :
    Bool :=
  let text := (article.title ++ " " ++ article.summary ++ " "
    ++ article.content).toLower
  cfg.requiredKeywords.any fun keyword => wordBoundedOccurs keyword.toLower text

/-- `isFromBlockedDomain`: blocked when the URL's host contains a blocked
domain; an unparsable URL is blocked. -/
def isFromBlockedDomain (cfg : FilterConfig) (url : String) : Bool :=
  if url = "" then false
  else
    match parseUrl url with
    | none => true
    | some u =>
      cfg.blockedDomains.any fun blocked =>
        jsIncludes u.host.toLower blocked.toLower

/-- Whether two consecutive characters of the list are both `!` or `?`,
the model of matching the doubled-punctuation class. -/
def hasDoublePunct : List Char → Bool
  | a :: b :: rest =>
    ((a = '!' || a = '?') && (b = '!' || b = '?')) || hasDoublePunct (b :: rest)
  | _ => false

/-- The sentences of `hasGoodContentQuality`: split the body at sentence
punctuation and keep the pieces with non-empty trimmed text. -/
def sentencesOf (content : String) : List String :=
  (splitOnPred (fun c => c = '.' || c = '!' || c = '?') content).filter
    (fun s => 0 < (jsTrim s).length)

/-- The whitespace-token count of one trimmed sentence. -/
def sentenceWordCount (s : String) : Nat :=
  ((splitOnPred Char.isWhitespace (jsTrim s)).filter (fun w => w ≠ "")).length

/-- `hasGoodContentQuality`: title length within [10, 200], capital-letter
share of the title at most one half, no doubled `!`/`?` run in the title,
at least 3 sentences, and average sentence word count within [5, 50]. -/
def hasGoodContentQuality (article : JArticle) : Bool :=
  if article.title.length < 10 ∨ 200 < article.title.length then false
  else
    let capsFrac : ℚ :=
      ((article.title.toList.filter fun c => 'A' ≤ c ∧ c ≤ 'Z').length : ℚ)
        / (article.title.length : ℚ)
    if (1 : ℚ)/2 < capsFrac then false
    else if hasDoublePunct article.title.toList then false
    else
      let sentences := sentencesOf article.content
      if sentences.length < 3 then false
      else
        let avgSentenceLength : ℚ :=
          ((sentences.map sentenceWordCount).sum : ℚ)
            / (sentences.length : ℚ)
        if avgSentenceLength < 5 ∨ 50 < avgSentenceLength then false
        else true

/-- `isValidArticle` over a possibly-`null` entry: the first required-field
access throws on `null`; otherwise the admission rules run in source
order. -/
def isValidArticle (cfg : FilterConfig) :
    Option JArticle → Except JsError Bool
  | none => .error (.typeError "Cannot read properties of null")
  | some article =>
    if article.title = "" ∨ article.url = "" ∨ article.content = "" then
      .ok false
    else if getWordCount article.content < cfg.minWordCount then .ok false
    else if containsSpamKeywords cfg article then .ok false
    else if ¬ containsRequiredKeywords cfg article then .ok false
    else if isFromBlockedDomain cfg article.url then .ok false
    else if ¬ hasGoodContentQuality article then .ok false
    else .ok true

/-- The callback of `filterArticles`: `isValidArticle` under
`try`/`catch`, where the `catch` handler itself reads `article.title` for
its log entry and therefore rethrows on a `null` entry. -/
def filterCallback (cfg : FilterConfig) (article : Option JArticle) :
    Except JsError Bool :=
  match isValidArticle cfg article with
  | .ok b => .ok b
  | .error _ =>
    match article with
    | none => .error (.typeError "Cannot read properties of null")
    | some _ => .ok false

/-- `filterArticles`: JavaScript `Array.prototype.filter` over the
callback; an exception escaping the callback aborts the whole call. -/
def filterArticles (cfg : FilterConfig) :
    List (Option JArticle) → Except JsError (List (Option JArticle))
  | [] => .ok []
  | article :: rest => do
    let keep ← filterCallback cfg article
    let tail ← filterArticles cfg rest
    pure (if keep then article :: tail else tail)

/-- Claim C3 evidence: on the input list `[null]` the filter throws — the
`catch` handler's log entry reads `article.title` of the `null` entry and
rethrows the `TypeError` — instead of skipping the entry; an entry that is
an object with a missing required field is, by contrast, silently
excluded. -/
theorem claim_c3_filter_throws :
    filterArticles defaultFilterConfig [none]
      = .error (.typeError "Cannot read properties of null") ∧
    filterArticles defaultFilterConfig
      [some { title := "", summary := "", content := "", url := "",
              source := "", image_url := "", published_date := 0,
              engagement_score := 0 }] = .ok [] := by
  exact ⟨rfl, rfl⟩

/-! ## Article model (src: database models, part_005)

The articles table has `url TEXT UNIQUE`.  The database driver used
throughout the repository is node-sqlite3 (`require('sqlite3')`), which
rejects a UNIQUE violation with the primary result code string
`SQLITE_CONSTRAINT` on `error.code` (extended result codes such as
`SQLITE_CONSTRAINT_UNIQUE` are the convention of a different driver and
are not produced here); the rejection model carries that code so the
string comparison performed by `Article.create` is preserved.  The
`JSON.stringify`/`JSON.parse` round-trip of the tag list is the identity
and the tags are kept as a list. -/

/-- A persisted article row. -/
structure ArticleRow where
  id : Nat
  url : String
  title : String
  summary : String
  content : String
  source : String
  published_date : ℚ
  image_url : String
  engagement_score : ℚ
  tags : List String
deriving DecidableEq

/-- The input of `Article.create` (the destructured fields, defaults
already applied). -/
structure ArticleData where
  url : String
  title : String
  summary : String
  content : String
  source : String
  published_date : ℚ
  image_url : String
  engagement_score : ℚ
  tags : List String
deriving DecidableEq

/-- The articles store: rows plus the autoincrement counter. -/
structure ArticleStore where
  rows : List ArticleRow
  nextId : Nat
deriving DecidableEq

/-- A rejected database call, carrying the driver's error code string and
message as exposed on the JavaScript error object. -/
structure SqlError where
  code : String
  message : String
deriving DecidableEq

/-- The `INSERT INTO articles ...` of `Article.create`: rejected when a
row with the inserted url exists — node-sqlite3 reports the primary
result code `SQLITE_CONSTRAINT` — else the row is appended under a fresh
id. -/
def dbRunInsertArticle (store : ArticleStore) (d : ArticleData) :
    Except SqlError (ArticleStore × Nat) :=
  if store.rows.any (fun r => r.url = d.url) then
    .error { code := "SQLITE_CONSTRAINT",
             message := "SQLITE_CONSTRAINT: UNIQUE constraint failed: articles.url" }
  else
    let row : ArticleRow :=
      { id := store.nextId, url := d.url, title := d.title,
        summary := d.summary, content := d.content, source := d.source,
        published_date := d.published_date, image_url := d.image_url,
        engagement_score := d.engagement_score, tags := d.tags }
    .ok ({ rows := store.rows ++ [row], nextId := store.nextId + 1 },
      store.nextId)

/-- `Article.findByUrl`: the first row with the given url. -/
def findByUrl (store : ArticleStore) (url : String) : Option ArticleRow :=
  store.rows.find? (fun r => r.url = url)

/-- `Article.create` of part_005: run the insert; in the catch, resolve to
the existing record via `findByUrl` when `error.code` equals the string
`SQLITE_CONSTRAINT_UNIQUE`, and rethrow any other error.  The comparison
is kept verbatim from the source: it is performed against the code the
driver actually reports. -/
def articleCreate (store : ArticleStore) (d : ArticleData) :
    ArticleStore × Except SqlError (Option ArticleRow) :=
  match dbRunInsertArticle store d with
  | .ok (store2, id) =>
    (store2, .ok (some
      { id := id, url := d.url, title := d.title, summary := d.summary,
        content := d.content, source := d.source,
        published_date := d.published_date, image_url := d.image_url,
        engagement_score := d.engagement_score, tags := d.tags }))
  | .error e =>
    if e.code = "SQLITE_CONSTRAINT_UNIQUE" then
      (store, .ok (findByUrl store d.url))
    else (store, .error e)

/-- Existing stored article row of the C5 failing input. -/
def c5Row : ArticleRow :=
  { id := 1, url := "https://news.example.com/a", title := "stored title",
    summary := "s", content := "c", source := "src",
    published_date := 1000, image_url := "", engagement_score := 0,
    tags := [] }

/-- Store of the C5 failing input, already containing `c5Row`. -/
def c5Store : ArticleStore := { rows := [c5Row], nextId := 2 }

/-- Re-ingested data of the C5 failing input: same url, different
title. -/
def c5Data : ArticleData :=
  { url := "https://news.example.com/a", title := "rescraped title",
    summary := "s2", content := "c2", source := "src",
    published_date := 2000, image_url := "", engagement_score := 0,
    tags := [] }

/-- Claim C5 evidence: `Article.create` on data whose url is already
stored does not resolve to the existing record — the driver rejects the
insert with code `SQLITE_CONSTRAINT`, the catch tests for
`SQLITE_CONSTRAINT_UNIQUE` (a different driver's convention), so the
error is rethrown; only the no-second-row half of the claim holds (the
store is unchanged).  The existing row with that url is present, so the
claim's premise is satisfied at this input. -/
theorem claim_c5_create_rethrows :
    c5Row ∈ c5Store.rows ∧ c5Row.url = c5Data.url ∧
    (articleCreate c5Store c5Data).2
      = .error { code := "SQLITE_CONSTRAINT",
                 message := "SQLITE_CONSTRAINT: UNIQUE constraint failed: articles.url" } ∧
    (articleCreate c5Store c5Data).1 = c5Store := by
  exact ⟨by decide, rfl, rfl, rfl⟩

/-! ## Publishing tick (src: part_004 `publishPost`,
facebook/postManager.js `processScheduledPosts`)

Timestamps (`scheduled_time`, `posted_time`, `now`) are epoch values; the
ISO-string comparison of the ready-posts query is chronological, so an
integer model preserves it.  The SQL `ORDER BY scheduled_time` of the
ready query is omitted: with distinct post ids the final store does not
depend on the processing order. -/

/-- A row of the `facebook_posts` table. -/
structure FBPostRow where
  id : Nat
  article_id : Nat
  post_text : String
  scheduled_time : Int
  status : String
  facebook_post_id : Option String
  post_url : Option String
  posted_time : Option Int
  error_message : Option String
deriving DecidableEq

/-- The optional column updates passed to `FacebookPost.updateStatus`
(a present field models a key present in the `updates` object). -/
structure StatusUpdates where
  facebook_post_id : Option String := none
  post_url : Option String := none
  posted_time : Option Int := none
  error_message : Option String := none
deriving DecidableEq

/-- One column update: keep the old value unless the update carries one. -/
def updateField {α : Type} (upd old : Option α) : Option α :=
  match upd with
  | some v => some v
  | none => old

/-- The row produced by `UPDATE facebook_posts SET status = ?, ... WHERE
id = ?` on a matching row. -/
def applyRowUpdate (r : FBPostRow) (status : String) (u : StatusUpdates) :
    FBPostRow :=
  { r with
    status := status,
    facebook_post_id := updateField u.facebook_post_id r.facebook_post_id,
    post_url := updateField u.post_url r.post_url,
    posted_time := updateField u.posted_time r.posted_time,
    error_message := updateField u.error_message r.error_message }

/-- `FacebookPost.updateStatus` over the whole table. -/
def updateStatus (store : List FBPostRow) (id : Nat) (status : String)
    (u : StatusUpdates) : List FBPostRow :=
  store.map fun r => if r.id = id then applyRowUpdate r status u else r

/-- The classified result of the Delivery Client call
(`api.createPost`). -/
inductive DeliveryOutcome where
  | success (facebook_post_id : String) (post_url : String)
  | failure (message : String)
deriving DecidableEq

/-- `publishPost`: update the row to `posting`, invoke the Delivery
Client, then update to `posted` with the external id, permalink and posted
time on success, or to `failed` with the error message on a thrown error
(caught; the function returns instead of rethrowing).  Returns the new
store, the ordered status-update trace and the success flag. -/
def publishPost (outcome : DeliveryOutcome) (now : Int)
    (store : List FBPostRow) (post : FBPostRow) :
    List FBPostRow × List (Nat × String) × Bool :=
  let store1 := updateStatus store post.id "posting" {}
  match outcome with
  | .success fbId url =>
    (updateStatus store1 post.id "posted"
      { facebook_post_id := some fbId, post_url := some url,
        posted_time := some now },
     [(post.id, "posting"), (post.id, "posted")], true)
  | .failure msg =>
    (updateStatus store1 post.id "failed" { error_message := some msg },
     [(post.id, "posting"), (post.id, "failed")], false)

/-- `FacebookPost.getReadyToPost`: the `pending` posts whose scheduled
time has passed. -/
def getReadyToPost (store : List FBPostRow) (now : Int) : List FBPostRow :=
  store.filter fun p => p.status = "pending" ∧ p.scheduled_time ≤ now

/-- One iteration of the ready-posts loop of `processScheduledPosts`. -/
def publishStep (outcomes : Nat → DeliveryOutcome) (now : Int)
    (acc : List FBPostRow × List (Nat × String)) (post : FBPostRow) :
    List FBPostRow × List (Nat × String) :=
  let step := publishPost (outcomes post.id) now acc.1 post
  (step.1, acc.2 ++ step.2.1)

/-- `processScheduledPosts`: publish every ready post in turn, each under
its own `try`/`catch`, accumulating the status-update trace. -/
def processScheduledPosts (outcomes : Nat → DeliveryOutcome) (now : Int)
    (store : List FBPostRow) : List FBPostRow × List (Nat × String) :=
  (getReadyToPost store now).foldl (publishStep outcomes now) (store, [])

/-- The first row of the table with the given id. -/
def rowById (store : List FBPostRow) (id : Nat) : Option FBPostRow :=
  store.find? fun r => r.id = id

theorem applyRowUpdate_id (r : FBPostRow) (s : String) (u : StatusUpdates) :
    (applyRowUpdate r s u).id = r.id := rfl

theorem updateStatus_rowById_other (store : List FBPostRow) (id i : Nat)
    (s : String) (u : StatusUpdates) (h : i ≠ id) :
    rowById (updateStatus store id s u) i = rowById store i := by
  induction store with
  | nil => rfl
  | cons r rest ih =>
    simp only [updateStatus, List.map_cons, rowById] at ih ⊢
    by_cases hr : r.id = id
    · rw [if_pos hr]
      rw [List.find?_cons_of_neg _ (by simp [applyRowUpdate_id, hr, Ne.symm h]),
        List.find?_cons_of_neg _ (by simp [hr, Ne.symm h])]
      exact ih
    · rw [if_neg hr]
      by_cases hri : r.id = i
      · rw [List.find?_cons_of_pos _ (by simp [hri]),
          List.find?_cons_of_pos _ (by simp [hri])]
      · rw [List.find?_cons_of_neg _ (by simp [hri]),
          List.find?_cons_of_neg _ (by simp [hri])]
        exact ih

theorem updateStatus_rowById_self (store : List FBPostRow) (id : Nat)
    (s : String) (u : StatusUpdates) :
    rowById (updateStatus store id s u) id =
      (rowById store id).map (fun r => applyRowUpdate r s u) := by
  induction store with
  | nil => rfl
  | cons r rest ih =>
    simp only [updateStatus, List.map_cons, rowById] at ih ⊢
    by_cases hr : r.id = id
    · rw [if_pos hr]
      rw [List.find?_cons_of_pos _ (by simp [applyRowUpdate_id, hr]),
        List.find?_cons_of_pos _ (by simp [hr])]
      rfl
    · rw [if_neg hr]
      rw [List.find?_cons_of_neg _ (by simp [hr]),
        List.find?_cons_of_neg _ (by simp [hr])]
      exact ih

/-- The net effect of a successful or failed `publishPost` on the post's
row: `posting` then `posted` with the external id, permalink and time, or
`posting` then `failed` with the error message. -/
def publishedRow (r : FBPostRow) (o : DeliveryOutcome) (now : Int) :
    FBPostRow :=
  match o with
  | .success fbId url =>
    { r with
      status := "posted"
      facebook_post_id := some fbId
      post_url := some url
      posted_time := some now }
  | .failure msg =>
    { r with
      status := "failed"
      error_message := some msg }

theorem publishPost_rowById_other (o : DeliveryOutcome) (now : Int)
    (store : List FBPostRow) (post : FBPostRow) (i : Nat)
    (h : i ≠ post.id) :
    rowById (publishPost o now store post).1 i = rowById store i := by
  cases o <;>
    simp [publishPost, updateStatus_rowById_other _ _ _ _ _ h]

theorem publishPost_trace_fst (o : DeliveryOutcome) (now : Int)
    (store : List FBPostRow) (post : FBPostRow) :
    ∀ u ∈ (publishPost o now store post).2.1, u.1 = post.id := by
  cases o <;> simp [publishPost]

theorem publishPost_rowById_self (o : DeliveryOutcome) (now : Int)
    (store : List FBPostRow) (post : FBPostRow) (r : FBPostRow)
    (hr : rowById store post.id = some r) :
    rowById (publishPost o now store post).1 post.id =
      some (publishedRow r o now) := by
  cases o <;>
    simp [publishPost, updateStatus_rowById_self, hr, applyRowUpdate,
      updateField, publishedRow]

theorem foldl_publishStep_frame (outcomes : Nat → DeliveryOutcome)
    (now : Int) (i : Nat) :
    ∀ (posts : List FBPostRow) (store : List FBPostRow)
      (tr : List (Nat × String)), (∀ q ∈ posts, q.id ≠ i) →
      rowById ((posts.foldl (publishStep outcomes now) (store, tr)).1) i
        = rowById store i ∧
      ((posts.foldl (publishStep outcomes now) (store, tr)).2).filter
          (fun u => u.1 = i)
        = tr.filter (fun u => u.1 = i) := by
  intro posts
  induction posts with
  | nil => intro store tr h; exact ⟨rfl, rfl⟩
  | cons post rest ih =>
    intro store tr h
    have hpost : post.id ≠ i := h post (List.mem_cons_self _ _)
    have hrest : ∀ q ∈ rest, q.id ≠ i :=
      fun q hq => h q (List.mem_cons_of_mem _ hq)
    simp only [List.foldl_cons]
    obtain ⟨ih1, ih2⟩ := ih (publishStep outcomes now (store, tr) post).1
      (publishStep outcomes now (store, tr) post).2 hrest
    constructor
    · rw [ih1]
      exact publishPost_rowById_other _ _ _ _ _ (Ne.symm hpost)
    · rw [ih2]
      simp only [publishStep, List.filter_append]
      have hemp : ((publishPost (outcomes post.id) now store post).2.1).filter
          (fun u => u.1 = i) = [] := by
        rw [List.filter_eq_nil_iff]
        intro u hu
        have := publishPost_trace_fst (outcomes post.id) now store post u hu
        simp [this, hpost]
      rw [hemp, List.append_nil]


theorem rowById_of_mem_nodup (store : List FBPostRow) (p : FBPostRow)
    (hmem : p ∈ store) (hnd : (store.map (fun r => r.id)).Nodup) :
    rowById store p.id = some p := by
  induction store with
  | nil => cases hmem
  | cons r rest ih =>
    rw [List.map_cons, List.nodup_cons] at hnd
    rcases List.mem_cons.mp hmem with h | h
    · subst h
      rw [rowById, List.find?_cons_of_pos _ (by simp)]
    · have hr : r.id ≠ p.id := by
        intro he
        exact hnd.1 (he ▸ List.mem_map_of_mem _ h)
      rw [rowById, List.find?_cons_of_neg _ (by simp [hr])]
      exact ih h hnd.2

/-- The terminal status recorded for a delivery outcome. -/
def outcomeStatus : DeliveryOutcome → String
  | .success _ _ => "posted"
  | .failure _ => "failed"

/-- Claim C4: every pending post whose scheduled time has passed is driven
by one publishing tick through `posting` and then to `posted` (with the
external post id and posted time recorded) when the Delivery Client call
succeeds, or to `failed` with the error message recorded when the call
throws; the conclusion holds for each ready post regardless of the
outcomes of the other posts in the same tick, so one failure does not
block the rest. -/
theorem claim_c4_publish_tick (outcomes : Nat → DeliveryOutcome) (now : Int)
    (store : List FBPostRow) (hnd : (store.map (fun r => r.id)).Nodup)
    (p : FBPostRow) (hp : p ∈ getReadyToPost store now) :
    rowById (processScheduledPosts outcomes now store).1 p.id =
      some (publishedRow p (outcomes p.id) now) ∧
    (processScheduledPosts outcomes now store).2.filter
        (fun u => u.1 = p.id) =
      [(p.id, "posting"), (p.id, outcomeStatus (outcomes p.id))] := by
  obtain ⟨l1, l2, hready⟩ := List.append_of_mem hp
  have hsub : List.Sublist (getReadyToPost store now) store :=
    List.filter_sublist _
  have hreadyNd : ((getReadyToPost store now).map (fun r => r.id)).Nodup :=
    hnd.sublist (hsub.map _)
  rw [hready] at hreadyNd
  have hmid := (List.nodup_middle.mp (by simpa using hreadyNd))
  rw [List.nodup_cons] at hmid
  have hnotin := hmid.1
  have hl1 : ∀ q ∈ l1, q.id ≠ p.id := by
    intro q hq he
    exact hnotin (by rw [← he]
                     exact List.mem_append_left _ (List.mem_map_of_mem _ hq))
  have hl2 : ∀ q ∈ l2, q.id ≠ p.id := by
    intro q hq he
    exact hnotin (by rw [← he]
                     exact List.mem_append_right _ (List.mem_map_of_mem _ hq))
  have hpstore : p ∈ store := by
    have hmemf : p ∈ store.filter
        (fun q => q.status = "pending" ∧ q.scheduled_time ≤ now) := hp
    exact List.mem_of_mem_filter hmemf
  have hrow : rowById store p.id = some p :=
    rowById_of_mem_nodup store p hpstore hnd
  unfold processScheduledPosts
  rw [hready, List.foldl_append, List.foldl_cons]
  obtain ⟨hf1, hf2⟩ := foldl_publishStep_frame outcomes now p.id l1 store [] hl1
  have hrow1 : rowById (l1.foldl (publishStep outcomes now) (store, [])).1 p.id
      = some p := by rw [hf1, hrow]
  obtain ⟨hg1, hg2⟩ := foldl_publishStep_frame outcomes now p.id l2
    (publishStep outcomes now (l1.foldl (publishStep outcomes now) (store, [])) p).1
    (publishStep outcomes now (l1.foldl (publishStep outcomes now) (store, [])) p).2 hl2
  constructor
  · rw [hg1]
    simp only [publishStep]
    exact publishPost_rowById_self _ _ _ _ _ hrow1
  · rw [hg2]
    simp only [publishStep, List.filter_append]
    rw [hf2]
    cases ho : outcomes p.id <;> simp [publishPost, outcomeStatus]


/-- C4 witness: a ready pending post whose delivery fails terminally. -/
def c4post1 : FBPostRow :=
  { id := 1, article_id := 10, post_text := "first post",
    scheduled_time := 50, status := "pending", facebook_post_id := none,
    post_url := none, posted_time := none, error_message := none }

/-- C4 witness: a second ready pending post whose delivery succeeds. -/
def c4post2 : FBPostRow :=
  { id := 2, article_id := 11, post_text := "second post",
    scheduled_time := 60, status := "pending", facebook_post_id := none,
    post_url := none, posted_time := none, error_message := none }

/-- C4 witness store with both ready posts. -/
def c4store : List FBPostRow := [c4post1, c4post2]

/-- C4 witness delivery outcomes: post 1 hits a terminal token error,
post 2 succeeds. -/
def c4outcomes : Nat → DeliveryOutcome := fun id =>
  if id = 1 then .failure "Token error (190): session expired"
  else .success "123_456" "https://facebook.com/123_456"

/-- Witness for claim C4 at a concrete tick: post 1 ends `failed` with its
error message recorded, and the failure does not prevent post 2 from being
published in the same tick (it ends `posted` with the external id and
posted time). -/
theorem claim_c4_publish_tick_witness :
    rowById (processScheduledPosts c4outcomes 100 c4store).1 c4post1.id =
      some (publishedRow c4post1 (c4outcomes c4post1.id) 100) ∧
    rowById (processScheduledPosts c4outcomes 100 c4store).1 c4post2.id =
      some (publishedRow c4post2 (c4outcomes c4post2.id) 100) ∧
    (processScheduledPosts c4outcomes 100 c4store).2.filter
        (fun u => u.1 = c4post2.id) =
      [(c4post2.id, "posting"),
       (c4post2.id, outcomeStatus (c4outcomes c4post2.id))] := by
  have h1 := claim_c4_publish_tick c4outcomes 100 c4store (by decide)
    c4post1 (by decide)
  have h2 := claim_c4_publish_tick c4outcomes 100 c4store (by decide)
    c4post2 (by decide)
  exact ⟨h1.1, h2.1, h2.2⟩

/-! ## Delivery retry loop (src: facebook/graphApi.js makeRequest) -/

/-- One attempt's result as seen by `makeRequest`: a successful response
body, an HTTP error response (status, optional Graph error code, message),
or a network error without a response. -/
inductive AttemptResult where
  | success (data : String)
  | httpError (status : Nat) (code : Option Nat) (message : String)
  | networkError (message : String)
deriving DecidableEq

/-- The observable outcome of `makeRequest`. -/
inductive RequestOutcome where
  | ok (data : String)
  | thrown (message : String)
  | noAttempt
deriving DecidableEq

/-- The outcome of a `makeRequest` call together with its observable retry
behaviour: the number of attempts performed and the waits inserted between
consecutive attempts. -/
structure RequestTrace where
  result : RequestOutcome
  attemptsUsed : Nat
  waits : List Nat
deriving DecidableEq

/-- The retry loop of `makeRequest`; `attempt` is the 1-based loop counter
compared against `retryAttempts` for the last-attempt test, and the fuel
argument (the remaining iterations) makes the recursion structural. -/
def makeRequestAux (retryAttempts retryDelay : Nat)
    (attempts : Nat → AttemptResult) :
    Nat → Nat → List Nat → RequestTrace
  | _, 0, waits =>
    { result := .noAttempt, attemptsUsed := 0, waits := waits }
  | attempt, remaining + 1, waits =>
    match attempts attempt with
    | .success data =>
      { result := .ok data, attemptsUsed := attempt, waits := waits }
    | .httpError status code message =>
      if code = some 190 ∨ code = some 463 then
        { result := .thrown ("Token error: " ++ message),
          attemptsUsed := attempt, waits := waits }
      else if status = 400 ∨ status = 403 then
        { result := .thrown ("Facebook API error: " ++ message),
          attemptsUsed := attempt, waits := waits }
      else if attempt = retryAttempts then
        { result := .thrown ("Facebook API failed after attempts: " ++ message),
          attemptsUsed := attempt, waits := waits }
      else
        makeRequestAux retryAttempts retryDelay attempts (attempt + 1)
          remaining (waits ++ [retryDelay * attempt])
    | .networkError message =>
      if attempt = retryAttempts then
        { result := .thrown ("Facebook API network error after attempts: "
            ++ message),
          attemptsUsed := attempt, waits := waits }
      else
        makeRequestAux retryAttempts retryDelay attempts (attempt + 1)
          remaining (waits ++ [retryDelay * attempt])

/-- `makeRequest`: run the retry loop from attempt 1; with a zero retry
count the loop body never runs and the function returns undefined. -/
def makeRequest (retryAttempts retryDelay : Nat)
    (attempts : Nat → AttemptResult) : RequestTrace :=
  makeRequestAux retryAttempts retryDelay attempts 1 retryAttempts []

/-- A response the code refuses to retry: an expired/invalid-token Graph
code (190 or 463) or HTTP status 400 or 403. -/
def nonRetryable : AttemptResult → Bool
  | .httpError status code _ =>
    code = some 190 ∨ code = some 463 ∨ status = 400 ∨ status = 403
  | _ => false

/-- A retryable failure: an error that is not classified non-retryable. -/
def retryableError : AttemptResult → Bool
  | .success _ => false
  | .httpError status code _ =>
    ¬ (code = some 190 ∨ code = some 463 ∨ status = 400 ∨ status = 403)
  | .networkError _ => true

theorem makeRequestAux_spec (retryAttempts retryDelay : Nat)
    (attempts : Nat → AttemptResult) :
    ∀ (remaining attempt : Nat) (waits : List Nat),
      1 ≤ remaining → attempt + remaining = retryAttempts + 1 →
      let r := makeRequestAux retryAttempts retryDelay attempts attempt
        remaining waits
      (attempt ≤ r.attemptsUsed ∧ r.attemptsUsed ≤ retryAttempts) ∧
      r.waits = waits ++ (List.range' attempt (r.attemptsUsed - attempt)).map
        (fun a => retryDelay * a) ∧
      (∀ i, attempt ≤ i → i < r.attemptsUsed →
        retryableError (attempts i) = true) ∧
      (match attempts r.attemptsUsed with
       | .success d => r.result = .ok d
       | _ => ∃ m, r.result = .thrown m) := by
  intro remaining
  induction remaining with
  | zero => intro attempt waits h1; omega
  | succ k ih =>
    intro attempt waits h1 h2
    have hle : attempt ≤ retryAttempts := by omega
    cases hres : attempts attempt with
    | success d =>
      simp only [makeRequestAux, hres]
      exact ⟨⟨le_refl _, hle⟩, by simp,
        fun i hi1 hi2 => absurd (lt_of_le_of_lt hi1 hi2) (lt_irrefl _),
        by simp [hres]⟩
    | httpError status code message =>
      simp only [makeRequestAux, hres]
      split_ifs with hc hs hl
      · exact ⟨⟨le_refl _, hle⟩, by simp,
          fun i hi1 hi2 => absurd (lt_of_le_of_lt hi1 hi2) (lt_irrefl _),
          by simp [hres]⟩
      · exact ⟨⟨le_refl _, hle⟩, by simp,
          fun i hi1 hi2 => absurd (lt_of_le_of_lt hi1 hi2) (lt_irrefl _),
          by simp [hres]⟩
      · exact ⟨⟨le_refl _, hle⟩, by simp,
          fun i hi1 hi2 => absurd (lt_of_le_of_lt hi1 hi2) (lt_irrefl _),
          by simp [hres]⟩
      · have hk1 : 1 ≤ k := by omega
        have hk2 : (attempt + 1) + k = retryAttempts + 1 := by omega
        obtain ⟨⟨ha1, ha2⟩, hw, hr, hd⟩ := ih (attempt + 1)
          (waits ++ [retryDelay * attempt]) hk1 hk2
        refine ⟨⟨by omega, ha2⟩, ?_, ?_, hd⟩
        · rw [hw, List.append_assoc]
          congr 1
          have hspan : (makeRequestAux retryAttempts retryDelay attempts
              (attempt + 1) k (waits ++ [retryDelay * attempt])).attemptsUsed
              - attempt
              = ((makeRequestAux retryAttempts retryDelay attempts
              (attempt + 1) k
              (waits ++ [retryDelay * attempt])).attemptsUsed
              - (attempt + 1)) + 1 := by omega
          rw [hspan, List.range'_succ, List.map_cons]
          rfl
        · intro i hi1 hi2
          rcases Nat.eq_or_lt_of_le hi1 with hieq | higt
          · subst hieq
            simp only [retryableError, hres, decide_eq_true_eq]
            push_neg at hc hs ⊢
            exact ⟨hc.1, hc.2, hs.1, hs.2⟩
          · exact hr i (by omega) hi2
    | networkError message =>
      simp only [makeRequestAux, hres]
      split_ifs with hl
      · exact ⟨⟨le_refl _, hle⟩, by simp,
          fun i hi1 hi2 => absurd (lt_of_le_of_lt hi1 hi2) (lt_irrefl _),
          by simp [hres]⟩
      · have hk1 : 1 ≤ k := by omega
        have hk2 : (attempt + 1) + k = retryAttempts + 1 := by omega
        obtain ⟨⟨ha1, ha2⟩, hw, hr, hd⟩ := ih (attempt + 1)
          (waits ++ [retryDelay * attempt]) hk1 hk2
        refine ⟨⟨by omega, ha2⟩, ?_, ?_, hd⟩
        · rw [hw, List.append_assoc]
          congr 1
          have hspan : (makeRequestAux retryAttempts retryDelay attempts
              (attempt + 1) k (waits ++ [retryDelay * attempt])).attemptsUsed
              - attempt
              = ((makeRequestAux retryAttempts retryDelay attempts
              (attempt + 1) k
              (waits ++ [retryDelay * attempt])).attemptsUsed
              - (attempt + 1)) + 1 := by omega
          rw [hspan, List.range'_succ, List.map_cons]
          rfl
        · intro i hi1 hi2
          rcases Nat.eq_or_lt_of_le hi1 with hieq | higt
          · subst hieq
            simp [retryableError, hres]
          · exact hr i (by omega) hi2


theorem nonRetryable_false_of_retryable (x : AttemptResult)
    (h : retryableError x = true) : nonRetryable x = false := by
  cases x with
  | success d => simp [nonRetryable]
  | httpError status code message =>
    simp only [retryableError, decide_eq_true_eq] at h
    simp only [nonRetryable, decide_eq_false_iff_not]
    tauto
  | networkError message => simp [nonRetryable]

/-- Claim C8: every Delivery Client request through `makeRequest`
performs at most the configured number of attempts (default 3); the waits
between consecutive attempts are `retryDelay × attempt` (linearly
increasing backoff); no attempt ever follows a response classified
non-retryable (token error code 190/463 or HTTP status 400/403), and when
the final response is non-retryable the call throws immediately. -/
theorem claim_c8_retry (retryAttempts retryDelay : Nat)
    (attempts : Nat → AttemptResult) (hpos : 1 ≤ retryAttempts) :
    (makeRequest retryAttempts retryDelay attempts).attemptsUsed
      ≤ retryAttempts ∧
    (makeRequest retryAttempts retryDelay attempts).waits
      = (List.range' 1
          ((makeRequest retryAttempts retryDelay attempts).attemptsUsed - 1)
        ).map (fun a => retryDelay * a) ∧
    (∀ i, 1 ≤ i →
      i < (makeRequest retryAttempts retryDelay attempts).attemptsUsed →
      nonRetryable (attempts i) = false) ∧
    (nonRetryable (attempts
        (makeRequest retryAttempts retryDelay attempts).attemptsUsed)
          = true →
      ∃ m, (makeRequest retryAttempts retryDelay attempts).result
        = .thrown m) := by
  simp only [makeRequest]
  obtain ⟨⟨ha1, ha2⟩, hw, hr, hd⟩ := makeRequestAux_spec retryAttempts
    retryDelay attempts retryAttempts 1 [] hpos (by omega)
  refine ⟨ha2, by simpa using hw, ?_, ?_⟩
  · intro i hi1 hi2
    exact nonRetryable_false_of_retryable _ (hr i hi1 hi2)
  · intro hnr
    revert hd
    cases haf : attempts
        (makeRequestAux retryAttempts retryDelay attempts 1 retryAttempts []
          ).attemptsUsed with
    | success d =>
      rw [haf] at hnr
      simp [nonRetryable] at hnr
    | httpError status code message =>
      exact fun hd => hd
    | networkError message =>
      exact fun hd => hd

/-- C8 witness attempts: a retryable network error on the first attempt,
then a non-retryable 400 response on the second. -/
def c8attempts : Nat → AttemptResult := fun attempt =>
  if attempt = 1 then .networkError "socket hang up"
  else .httpError 400 none "Unsupported post request"

/-- Witness for claim C8 at a concrete run: a retryable network error is
followed by one wait of retryDelay × 1, and the non-retryable 400 response
of attempt 2 throws immediately with no third attempt. -/
theorem claim_c8_retry_witness :
    (makeRequest 3 5 c8attempts).attemptsUsed = 2 ∧
    (makeRequest 3 5 c8attempts).waits = [5] ∧
    ∃ m, (makeRequest 3 5 c8attempts).result = .thrown m := by
  have h := claim_c8_retry 3 5 c8attempts (by norm_num)
  exact ⟨by decide, by decide, h.2.2.2 (by decide)⟩


/-! ## Ingestion run (src: scheduler cron jobs, postGenerator.js second
half, `runNewsScraping`)

The `published_date` ISO strings of the store are modelled as epoch
rationals (their lexicographic comparison is chronological).  The
asynchronous run is modelled sequentially: the busy flag is tested at
entry and reset by the `finally` on every exit path. -/

/-- A stored row converted back to the article object shape handled by
the processors (`Article.getRecent` rows). -/
def rowToJArticle (r : ArticleRow) : JArticle :=
  { title := r.title, summary := r.summary, content := r.content,
    url := r.url, source := r.source, image_url := r.image_url,
    published_date := r.published_date,
    engagement_score := r.engagement_score }

/-- The data `Article.create` receives for a pipeline article. -/
def articleDataOf (a : JArticle) : ArticleData :=
  { url := a.url, title := a.title, summary := a.summary,
    content := a.content, source := a.source,
    published_date := a.published_date, image_url := a.image_url,
    engagement_score := a.engagement_score, tags := [] }

/-- `Article.getRecent`: the articles published within the last `hours`
hours. -/
def getRecent (store : ArticleStore) (now hours : ℚ) : List JArticle :=
  (store.rows.filter
    (fun r => now - hours * (60 * 60 * 1000) ≤ r.published_date)).map
    rowToJArticle

/-- `sortByEngagement`: descending relevance score, ties by descending
engagement score, then by more recent published date (a stable sort, as
the runtime's). -/
def sortByEngagement (now : ℚ) (articles : List JArticle) :
    List JArticle :=
  articles.mergeSort fun a b =>
    let ra := calculateRelevanceScore now a
    let rb := calculateRelevanceScore now b
    if ra ≠ rb then decide (rb < ra)
    else if a.engagement_score ≠ b.engagement_score then
      decide (b.engagement_score < a.engagement_score)
    else decide (b.published_date ≤ a.published_date)

/-- The save loop of the ingestion run: `Article.create` each sorted
article and add it to the processing queue with priority 1; a failure for
one article is caught and the loop continues. -/
def saveLoop : ArticleStore → List (Nat × Nat) → List JArticle →
    ArticleStore × List (Nat × Nat) × Nat
  | store, queue, [] => (store, queue, 0)
  | store, queue, a :: rest =>
    match articleCreate store (articleDataOf a) with
    | (store2, .ok saved) =>
      let id := (saved.map (fun r => r.id)).getD 0
      let result := saveLoop store2 (queue ++ [(id, 1)]) rest
      (result.1, result.2.1, result.2.2 + 1)
    | (store2, .error _) => saveLoop store2 queue rest

/-- The in-memory state of the cron scheduler: the busy flag and the
persistent stores. -/
structure CronState where
  isProcessing : Bool
  articles : ArticleStore
  queue : List (Nat × Nat)
deriving DecidableEq

/-- The result of the external scrape (`scrapeAllSources`): its article
list, or a thrown error. -/
inductive ScrapeOutcome where
  | ok (rawArticles : List JArticle)
  | err (message : String)
deriving DecidableEq

/-- The observable outcome of one `runNewsScraping` invocation. -/
inductive RunResult where
  | skipped
  | noNewArticles
  | completed (saved : Nat)
  | errored (message : String)
deriving DecidableEq

/-- `runNewsScraping`: the busy guard returns immediately when a run is in
progress; otherwise the flag is set, the scrape → filter → dedup → sort →
save pipeline runs, and the `finally` clears the flag on every exit,
including the rethrowing error path. -/
def runNewsScraping (cfg : FilterConfig) (now : ℚ) (scrape : ScrapeOutcome)
    (st : CronState) : CronState × RunResult :=
  if st.isProcessing then (st, .skipped)
  else
    match scrape with
    | .err m => ({ st with isProcessing := false }, .errored m)
    | .ok rawArticles =>
      if rawArticles.length = 0 then
        ({ st with isProcessing := false }, .noNewArticles)
      else
        match filterArticles cfg (rawArticles.map some) with
        | .error (.typeError m) =>
          ({ st with isProcessing := false }, .errored m)
        | .ok filtered =>
          let filteredArticles := filtered.filterMap (fun x => x)
          let recentArticles := getRecent st.articles now 24
          let uniqueArticles :=
            removeDuplicates filteredArticles recentArticles
          let sortedArticles := sortByEngagement now uniqueArticles
          let saved := saveLoop st.articles st.queue sortedArticles
          ({ isProcessing := false, articles := saved.1,
             queue := saved.2.1 },
           .completed saved.2.2)

/-- Claim C9: while an ingestion run is in progress (the busy flag set),
a further `runNewsScraping` invocation is a no-op — it returns immediately
with the state unchanged (nothing scraped, filtered, deduplicated or
written, and nothing queued for later); and a run that starts (flag
clear) leaves the flag cleared on every exit, including the error path,
so the busy-flag mutual exclusion never lets two runs execute
concurrently. -/
theorem claim_c9_single_flight (cfg : FilterConfig) (now : ℚ)
    (scrape : ScrapeOutcome) (st : CronState) :
    (st.isProcessing = true →
      runNewsScraping cfg now scrape st = (st, .skipped)) ∧
    (st.isProcessing = false →
      (runNewsScraping cfg now scrape st).1.isProcessing = false) := by
  constructor
  · intro h
    simp [runNewsScraping, h]
  · intro h
    cases scrape with
    | err m => simp [runNewsScraping, h]
    | ok raw =>
      simp only [runNewsScraping, h, Bool.false_eq_true, if_false]
      split
      · rfl
      · cases hf : filterArticles cfg (raw.map some) with
        | error e => cases e; rfl
        | ok filtered => rfl

/-- A busy cron state for the C9 witness. -/
def c9busy : CronState :=
  { isProcessing := true, articles := c5Store, queue := [] }

/-- An idle cron state for the C9 witness. -/
def c9idle : CronState :=
  { isProcessing := false, articles := c5Store, queue := [] }

/-- Witness for claim C9: with the busy flag set the invocation returns
the state unchanged as a skip, and an idle run hitting a scrape error
still ends with the flag cleared. -/
theorem claim_c9_single_flight_witness :
    runNewsScraping defaultFilterConfig 0 (.ok [c2p]) c9busy
      = (c9busy, .skipped) ∧
    (runNewsScraping defaultFilterConfig 0 (.err "network down")
      c9idle).1.isProcessing = false := by
  have h1 := claim_c9_single_flight defaultFilterConfig 0 (.ok [c2p]) c9busy
  have h2 := claim_c9_single_flight defaultFilterConfig 0
    (.err "network down") c9idle
  exact ⟨h1.1 rfl, h2.2 rfl⟩

end Forwarder
